import Mathlib

/-!
Verification of the club-data acquisition pipeline `get_club_data`
(src/app_flet.py, lines 43 to 184).

The function is embedded shallowly.  External effects are supplied by an
`Oracle`: the roster fetch result, a per-member detail-fetch outcome stream,
and a per-player script of paging responses (each loop iteration of the
Python paging `while` consumes exactly one script element, so the script
doubles as fuel; an exhausted script yields `none`, meaning the behaviour is
not determined by the oracle).  The cooperative cancellation `threading.Event`
is modelled by an optional poll-count threshold `stopAt`: the k-th call of
`is_set` returns true iff the threshold is at most k, which is exactly a
set-once event.  Every side effect the code performs (posting a page request,
re-authenticating, the two rate-limit sleeps and the backoff sleep, the
per-member detail fetch) is recorded in an event trace.
-/

/-- Raw roster record, as returned by the roster endpoint.  Fields are the
ones `get_club_data` reads with `member.get(...)`; an `Option` value of
`none` corresponds to an absent key / JSON null. -/
structure Member where
  id : String
  duprId : Option String
  fullName : Option String
  gender : Option String
  age : Option Nat
  shortAddress : Option String
  singles : Option String
  doubles : Option String
  singlesVerified : Option String
  doublesVerified : Option String
  singlesReliability : Option String
  doublesReliability : Option String
  clubName : Option String
deriving DecidableEq

/-- One match-history record; opaque to the pipeline beyond being an element
of a page's `hits`. -/
structure MatchRecord where
  tag : Nat
deriving DecidableEq

/-- Decoded body of a successful `get_player` call: the two nested
`detailed_profile.get("singles", \x7b\x7d).get("display", "N/A")` lookups,
before the `"N/A"` default is applied. -/
structure Detail where
  singlesDisplay : Option String
  doublesDisplay : Option String
deriving DecidableEq

/-- Outcome of one `client.get_player` attempt: an exception anywhere inside
the member's `try` block, or a return value `(status, detailed_profile)`
where a `none` detail is a falsy `detailed_profile` (the code ignores
`status`). -/
inductive DetailResult where
  | exc : DetailResult
  | ok (status : Bool) (detail : Option Detail) : DetailResult

/-- `true` exactly on the exception outcome. -/
def DetailResult.isExc : DetailResult → Bool
  | DetailResult.exc => true
  | DetailResult.ok _ _ => false

/-- One paging attempt as seen by the `try` block of the paging loop:
`raise` is an exception from `dupr_post`, `r.json()` or `handle_paging`;
`respond code body` is a returned response with status `code`, whose decoded
paging payload is `body` — `none` there means the decode raises (only
reachable when `code = 200`, since a non-200 response is never decoded). -/
inductive Attempt where
  | raise : Attempt
  | respond (code : Nat) (body : Option (Option Nat × List MatchRecord)) : Attempt

/-- Observable side effects of the pipeline, in program order:
`getPlayer` is the per-member `client.get_player` attempt, `sleepProfile`
the `sleep(1)` after a successful enrichment, `post` a `dupr_post` of the
history endpoint with the request's `limit` and `offset`, `reauth` the
`client.login_user` call on a 403, `sleepPage` the `sleep(1)` after a
non-empty page, `sleepBackoff` the `sleep(2)` in the exception handler. -/
inductive Ev where
  | getPlayer (pid : String) : Ev
  | sleepProfile : Ev
  | post (pid : String) (limit : Int) (offset : Nat) : Ev
  | reauth : Ev
  | sleepPage : Ev
  | sleepBackoff : Ev
deriving DecidableEq

/-- The k-th poll of the cancellation event (`stop_event.is_set()`):
true iff the set-once event was set at some poll index `t ≤ k`. -/
def isSet (stopAt : Option Nat) (k : Nat) : Bool :=
  match stopAt with
  | none => false
  | some t => decide (t ≤ k)

/-- Python list slice `xs[:n]` for an `int` n: a nonnegative bound keeps the
first `n` elements; a negative bound drops the last `-n` elements. -/
def pyTake (n : Int) (xs : List α) : List α :=
  if 0 ≤ n then xs.take n.toNat else xs.take (xs.length - (-n).toNat)

/-- Python `n or 0` on an `int`: `0` is falsy, every other value truthy,
so this is the identity. -/
def pyOrZero (n : Int) : Int :=
  if n = 0 then 0 else n

/-- Line 64: `members = members[: max_members or 0]`. -/
def truncateMembers (max_members : Int) (roster : List Member) : List Member :=
  pyTake (pyOrZero max_members) roster

/-- The profile dict built for one member (lines 77 to 103): the fixed copy
of roster fields, plus the two detailed rating-display fields merged in only
when `detailed_profile` was truthy. -/
structure Profile where
  id : String
  duprId : Option String
  fullName : Option String
  gender : Option String
  age : Option Nat
  shortAddress : Option String
  singles : Option String
  doubles : Option String
  singlesVerified : Option String
  doublesVerified : Option String
  singlesReliability : Option String
  doublesReliability : Option String
  singles_rating : Option String
  doubles_rating : Option String
deriving DecidableEq

/-- Build the profile dict for `m` given the (possibly absent) truthy
detailed profile `d`. -/
def buildProfile (m : Member) (d : Option Detail) : Profile :=
  { id := m.id
    duprId := m.duprId
    fullName := m.fullName
    gender := m.gender
    age := m.age
    shortAddress := m.shortAddress
    singles := m.singles
    doubles := m.doubles
    singlesVerified := m.singlesVerified
    doublesVerified := m.doublesVerified
    singlesReliability := m.singlesReliability
    doublesReliability := m.doublesReliability
    singles_rating := d.map (fun dd => dd.singlesDisplay.getD "N/A")
    doubles_rating := d.map (fun dd => dd.doublesDisplay.getD "N/A") }

/-- The profile-enrichment loop (lines 69 to 108) over the remaining members.
`details` gives the outcome of the `get_player` attempt for the member at
enumeration index `idx`; `polls` is the global cancellation poll counter.
Returns the profiles appended, the final poll counter and the event trace.
Note the `sleep(1)` of line 106 sits inside the `try`, so it runs only when
the attempt did not raise. -/
def enrichLoop (stopAt : Option Nat) (details : Nat → DetailResult) :
    List Member → Nat → Nat → List Profile × Nat × List Ev
  | [], _, polls => ([], polls, [])
  | m :: rest, idx, polls =>
    if isSet stopAt polls then ([], polls + 1, [])
    else
      match details idx with
      | DetailResult.exc =>
        let r := enrichLoop stopAt details rest (idx + 1) (polls + 1)
        (r.1, r.2.1, Ev.getPlayer m.id :: r.2.2)
      | DetailResult.ok _ d =>
        let r := enrichLoop stopAt details rest (idx + 1) (polls + 1)
        (buildProfile m d :: r.1, r.2.1,
          Ev.getPlayer m.id :: Ev.sleepProfile :: r.2.2)

/-- `max_retries` (line 123). -/
def maxRetries : Nat := 3

/-- The per-player paging `while` loop (lines 125 to 167).  One script
element is consumed per iteration that issues a request; `none` means the
script ran out while the loop still wanted another response.  Returns the
accumulated `match_list`, the final poll counter and the event trace. -/
def fetchLoop (stopAt : Option Nat) (limit : Int) (pid : String) :
    List Attempt → Option Nat → Nat → List MatchRecord → Nat →
    Option (List MatchRecord × Nat × List Ev)
  | _, none, _, acc, polls => some (acc, polls, [])
  | script, some off, retry, acc, polls =>
    if maxRetries ≤ retry then some (acc, polls, [])
    else if isSet stopAt polls then some (acc, polls + 1, [])
    else
      match script with
      | [] => none
      | Attempt.raise :: rest =>
        (fetchLoop stopAt limit pid rest (some off) (retry + 1) acc
            (polls + 1)).map
          (fun r => (r.1, r.2.1,
            Ev.post pid limit off :: Ev.sleepBackoff :: r.2.2))
      | Attempt.respond code body :: rest =>
        if code ≠ 200 then
          if code = 403 then
            (fetchLoop stopAt limit pid rest (some off) (retry + 1) acc
                (polls + 1)).map
              (fun r => (r.1, r.2.1,
                Ev.post pid limit off :: Ev.reauth :: r.2.2))
          else some (acc, polls + 1, [Ev.post pid limit off])
        else
          match body with
          | none =>
            (fetchLoop stopAt limit pid rest (some off) (retry + 1) acc
                (polls + 1)).map
              (fun r => (r.1, r.2.1,
                Ev.post pid limit off :: Ev.sleepBackoff :: r.2.2))
          | some (nextOff, hits) =>
            if hits.isEmpty then some (acc, polls + 1, [Ev.post pid limit off])
            else
              (fetchLoop stopAt limit pid rest nextOff retry (acc ++ hits)
                  (polls + 1)).map
                (fun r => (r.1, r.2.1,
                  Ev.post pid limit off :: Ev.sleepPage :: r.2.2))

/-- Insert into a Python dict viewed as an insertion-ordered association
list: overwrite in place when the key exists, append otherwise. -/
def dictInsert (k : String) (v : List MatchRecord) :
    List (String × List MatchRecord) → List (String × List MatchRecord)
  | [] => [(k, v)]
  | (k', v') :: rest =>
    if k' = k then (k, v) :: rest else (k', v') :: dictInsert k v rest

/-- The outer match-history loop (lines 115 to 172): for each player id run
the paging loop, then store the accumulation under the id only when it is
non-empty. -/
def historyLoop (stopAt : Option Nat) (limit : Int)
    (pages : Nat → List Attempt) :
    List String → Nat → Nat → List (String × List MatchRecord) →
    Option (List (String × List MatchRecord) × Nat × List Ev)
  | [], _, polls, hist => some (hist, polls, [])
  | pid :: rest, idx, polls, hist =>
    if isSet stopAt polls then some (hist, polls + 1, [])
    else
      match fetchLoop stopAt limit pid (pages idx) (some 0) 0 [] (polls + 1)
        with
      | none => none
      | some r =>
        let hist' := if r.1.isEmpty then hist else dictInsert pid r.1 hist
        match historyLoop stopAt limit pages rest (idx + 1) r.2.1 hist' with
        | none => none
        | some h => some (h.1, h.2.1, r.2.2 ++ h.2.2)

/-- The `club_info` record of the final dict (lines 175 to 180). -/
structure ClubInfo where
  id : String
  name : Option String
  total_members : Nat
  scraped_matches : Nat
deriving DecidableEq

/-- The dict returned by `get_club_data` (lines 174 to 184). -/
structure CrawlResult where
  club_info : ClubInfo
  members : List Member
  player_profiles : List Profile
  match_history : List (String × List MatchRecord)
deriving DecidableEq

/-- Assembly of the returned dict from the truncated members, the collected
profiles and the match-history dict. -/
def assembleResult (club_id : String) (members : List Member)
    (profiles : List Profile) (hist : List (String × List MatchRecord)) :
    CrawlResult :=
  { club_info :=
      { id := club_id
        name := match members with
          | [] => some ""
          | m :: _ => m.clubName
        total_members := members.length
        scraped_matches := (hist.map (fun kv => kv.2.length)).sum }
    members := members
    player_profiles := profiles
    match_history := hist }

/-- Behaviour of the external world for one run: the roster fetch result,
the stream of per-member detail outcomes (by enumeration index), and the
per-player paging scripts (by player index). -/
structure Oracle where
  rosterOk : Bool
  roster : List Member
  details : Nat → DetailResult
  pages : Nat → List Attempt

/-- The whole pipeline `get_club_data`.  `some (Except.error msg)` is the
`RuntimeError` raised on a failed roster fetch; `some (Except.ok (res, tr))`
is a normal return with its event trace; `none` means a paging script was
exhausted, so the oracle does not determine the run. -/
def get_club_data (o : Oracle) (club_id : String)
    (max_members max_matches matches_per_player : Int)
    (stopAt : Option Nat) : Option (Except String (CrawlResult × List Ev)) :=
  if o.rosterOk then
    let members := truncateMembers max_members o.roster
    let e := enrichLoop stopAt o.details members 0 0
    let player_ids := (pyTake (pyOrZero max_matches) members).map Member.id
    (historyLoop stopAt matches_per_player o.pages player_ids 0 e.2.1 []).map
      (fun h => Except.ok
        (assembleResult club_id members e.1 h.1, e.2.2 ++ h.2.2))
  else some (Except.error "Không lấy được danh sách thành viên")

/-- Number of trace events matching a predicate. -/
def countEv (p : Ev → Bool) (tr : List Ev) : Nat :=
  (tr.filter p).length

/-- Recognizer for reauthentication events. -/
def isReauth : Ev → Bool
  | Ev.reauth => true
  | _ => false

/-- Recognizer for the enrichment rate-limit sleep. -/
def isSleepProfile : Ev → Bool
  | Ev.sleepProfile => true
  | _ => false

/-- Recognizer for the paging backoff sleep. -/
def isSleepBackoff : Ev → Bool
  | Ev.sleepBackoff => true
  | _ => false

/-- Recognizer for page-request events. -/
def isPost : Ev → Bool
  | Ev.post _ _ _ => true
  | _ => false

/-- Recognizer for per-member detail-fetch attempts. -/
def isGetPlayer : Ev → Bool
  | Ev.getPlayer _ => true
  | _ => false

/-- The offsets of all page requests, in order. -/
def postOffsets : List Ev → List Nat
  | [] => []
  | Ev.post _ _ off :: tr => off :: postOffsets tr
  | _ :: tr => postOffsets tr

/-- The player ids present in the returned match-history dict, in insertion
order. -/
def historyKeys (res : CrawlResult) : List String :=
  res.match_history.map Prod.fst

/-- Project a pipeline outcome onto its normal-return payload. -/
def runOutcome :
    Option (Except String (CrawlResult × List Ev)) →
    Option (CrawlResult × List Ev)
  | some (Except.ok p) => some p
  | _ => none

/-- A first concrete roster member, used by concrete runs below. -/
def memA : Member :=
  { id := "A"
    duprId := some "D-A"
    fullName := some "Alice"
    gender := none
    age := some 30
    shortAddress := none
    singles := some "3.5"
    doubles := none
    singlesVerified := none
    doublesVerified := none
    singlesReliability := none
    doublesReliability := none
    clubName := some "Club X" }

/-- A second concrete roster member. -/
def memB : Member :=
  { memA with id := "B", fullName := some "Bob", clubName := some "Club X" }

/-- Concrete match records. -/
def rec1 : MatchRecord := { tag := 1 }

/-- Concrete match records. -/
def rec2 : MatchRecord := { tag := 2 }

/-- Concrete match records. -/
def rec3 : MatchRecord := { tag := 3 }

/-- Oracle for the C4 scenario: one member whose paging endpoint returns 403
twice, then 200 with empty hits. -/
def oracle4 : Oracle :=
  { rosterOk := true
    roster := [memA]
    details := fun _ => DetailResult.ok true none
    pages := fun _ =>
      [Attempt.respond 403 none, Attempt.respond 403 none,
       Attempt.respond 200 (some (some 20, []))] }

/-- Oracle for the C6 scenario: hits at offset 0 pointing at offset 20, then
hits at offset 20 with null next offset. -/
def oracle6 : Oracle :=
  { rosterOk := true
    roster := [memA]
    details := fun _ => DetailResult.ok true none
    pages := fun _ =>
      [Attempt.respond 200 (some (some 20, [rec1])),
       Attempt.respond 200 (some (none, [rec2]))] }

/-- Oracle whose single enrichment attempt raises; paging is skipped by a
zero `max_matches`. -/
def oracle9 : Oracle :=
  { rosterOk := true
    roster := [memA]
    details := fun _ => DetailResult.exc
    pages := fun _ => [] }

/-- Oracle with two members and one crawled player holding three matches. -/
def oracle8 : Oracle :=
  { rosterOk := true
    roster := [memA, memB]
    details := fun _ => DetailResult.ok true none
    pages := fun _ => [Attempt.respond 200 (some (none, [rec1, rec2, rec3]))] }

/-- Python slicing of the empty list yields the empty list for every bound. -/
theorem pyTake_nil (n : Int) : pyTake n ([] : List α) = [] := by
  unfold pyTake
  split <;> simp

/-- C1: `get_club_data` raises its fatal error if and only if the roster
fetch reports failure (`get_members_by_club` returns a false status); when
the roster fetch succeeds, no run outcome is ever the raised error — every
determined run is a normal return of an assembled result. -/
theorem c1_fatal_error_iff_roster_failure (o : Oracle) (cid : String)
    (mm mx mpp : Int) (stopAt : Option Nat) :
    (∃ msg, get_club_data o cid mm mx mpp stopAt = some (Except.error msg))
      ↔ o.rosterOk = false := by
  cases hok : o.rosterOk
  · simp [get_club_data, hok]
  · simp [get_club_data, hok, Option.map_eq_some']

/-- C3 counterexample: with `max_members = -1` (which is `≤ 0`) and a
successfully fetched two-member roster, member enumeration is NOT empty —
the Python slice `members[: -1]` keeps everything but the last member. -/
theorem c3_counterexample_negative_cap :
    truncateMembers (-1) [memA, memB] ≠ [] := by decide

/-- C3 amended: `max_members = 0` yields an empty member sequence, but a
negative `max_members` yields all but the last `|max_members|` members
(empty only when the roster is no longer than `|max_members|`). -/
theorem c3_truncation_amended (roster : List Member) (n : Int) :
    truncateMembers 0 roster = [] ∧
    (n < 0 →
      truncateMembers n roster
        = roster.take (roster.length - (-n).toNat)) := by
  refine ⟨?_, ?_⟩
  · simp [truncateMembers, pyOrZero, pyTake]
  · intro hn
    have h0 : ¬(n = 0) := by omega
    have h1 : ¬(0 ≤ n) := by omega
    simp [truncateMembers, pyOrZero, pyTake, h0, h1]

/-- Witness for the amended C3 at the concrete input `n = -1`, two-member
roster: the slice keeps the first member. -/
theorem c3_truncation_amended_witness :
    ((-1 : Int) < 0) ∧
    truncateMembers (-1) [memA, memB]
      = [memA, memB].take ([memA, memB].length - (-(-1 : Int)).toNat) :=
  ⟨by decide, (c3_truncation_amended [memA, memB] (-1)).2 (by decide)⟩

/-- C4: with a paging endpoint answering 403, 403, then 200 with empty hits,
the run performs exactly two reauthentication calls, every page request
(including both retries) uses offset 0, and the player is absent from the
returned `match_history`. -/
theorem c4_two_reauths_same_offset :
    (runOutcome (get_club_data oracle4 "club-4" 20 5 10 none)).map
        (fun p => (countEv isReauth p.2, postOffsets p.2, historyKeys p.1))
      = some (2, [0, 0, 0], []) := by decide

/-- C6: with a paging endpoint returning hits at offset 0 (next offset 20)
and hits at offset 20 (next offset null), the run accumulates both batches
in order under the player id, issues exactly the two page requests at
offsets 0 and 20, and performs no reauthentication and no backoff retry. -/
theorem c6_paging_accumulates_and_stops :
    (runOutcome (get_club_data oracle6 "club-6" 20 5 10 none)).map
        (fun p => (p.1.match_history, countEv isReauth p.2,
                   countEv isSleepBackoff p.2, postOffsets p.2))
      = some ([("A", [rec1, rec2])], 0, 0, [0, 20]) := by decide

/-- C8 counterexample: in a run with two members and one crawled player
holding three matches, the players-with-history count is 1, but the
assembled `club_info` carries only the aggregates `total_members = 2` and
`scraped_matches = 3` — no component of `club_info` holds the
players-with-history count (the export stage computes it separately from
`match_history`). -/
theorem c8_counterexample_no_players_with_history_field :
    (runOutcome (get_club_data oracle8 "club-8" 20 1 10 none)).map
        (fun p => (p.1.club_info.total_members, p.1.club_info.scraped_matches,
                   p.1.match_history.length))
      = some (2, 3, 1) ∧ (2 : Nat) ≠ 1 ∧ (3 : Nat) ≠ 1 := by decide

/-- C9 counterexample: a run whose single enrichment attempt raises performs
one `get_player` attempt but zero enrichment rate-limit sleeps — the
`sleep(1)` sits inside the `try` block, so a failing attempt skips the
delay, refuting "a delay is executed after every attempt, success or
failure". -/
theorem c9_counterexample_failed_attempt_skips_delay :
    (runOutcome (get_club_data oracle9 "club-9" 20 0 10 none)).map
        (fun p => (countEv isGetPlayer p.2, countEv isSleepProfile p.2))
      = some (1, 0) := by decide

/-- C10: whenever the roster fetch succeeds and the truncated member
sequence is empty (for example with `max_members = 0`), `get_club_data`
returns normally with club name the empty string, zero total members, zero
scraped matches, and empty member, profile and match-history collections. -/
theorem c10_empty_members_result (o : Oracle) (cid : String)
    (mm mx mpp : Int) (stopAt : Option Nat)
    (hok : o.rosterOk = true) (hempty : truncateMembers mm o.roster = []) :
    get_club_data o cid mm mx mpp stopAt
      = some (Except.ok
          ({ club_info := { id := cid, name := some "",
                            total_members := 0, scraped_matches := 0 }
             members := [], player_profiles := [], match_history := [] },
           [])) := by
  simp [get_club_data, hok, hempty, pyTake_nil, enrichLoop, historyLoop,
    assembleResult]

/-- Witness for C10 at a concrete oracle with a one-member roster and
`max_members = 0`. -/
theorem c10_empty_members_result_witness :
    oracle8.rosterOk = true ∧ truncateMembers 0 oracle8.roster = [] ∧
    get_club_data oracle8 "c10" 0 5 10 none
      = some (Except.ok
          ({ club_info := { id := "c10", name := some "",
                            total_members := 0, scraped_matches := 0 }
             members := [], player_profiles := [], match_history := [] },
           [])) :=
  ⟨rfl, by decide,
    c10_empty_members_result oracle8 "c10" 0 5 10 none rfl (by decide)⟩

/-- Counting events in the empty trace. -/
theorem countEv_nil (p : Ev → Bool) : countEv p [] = 0 := rfl

/-- Counting events across a cons. -/
theorem countEv_cons (p : Ev → Bool) (e : Ev) (tr : List Ev) :
    countEv p (e :: tr) = (if p e then 1 else 0) + countEv p tr := by
  by_cases hp : p e
  · simp [countEv, List.filter_cons, hp, Nat.add_comm]
  · simp [countEv, List.filter_cons, hp]

/-- Counting events across an append. -/
theorem countEv_append (p : Ev → Bool) (a b : List Ev) :
    countEv p (a ++ b) = countEv p a + countEv p b := by
  simp [countEv, List.filter_append]

/-- Retry-budget bound for an all-raising endpoint, generalized over the
starting retry count: with `r + k ≥ 3` raises available and `r ≤ 3`, the
paging loop terminates, leaves the accumulation untouched, issues at most
`3 - r` further requests, and every request uses offset 0. -/
theorem fetchLoop_raise_aux (stopAt : Option Nat) (limit : Int)
    (pid : String) :
    ∀ (k r polls : Nat) (acc : List MatchRecord), 3 ≤ r + k → r ≤ 3 →
      ∃ polls' tr,
        fetchLoop stopAt limit pid (List.replicate k Attempt.raise) (some 0) r
            acc polls
          = some (acc, polls', tr) ∧
        countEv isPost tr + r ≤ 3 ∧
        (postOffsets tr).all (fun x => x == 0) = true := by
  intro k
  induction k with
  | zero =>
    intro r polls acc h3 hr
    have hr3 : maxRetries ≤ r := by simp [maxRetries]; omega
    refine ⟨polls, [], ?_, ?_, ?_⟩
    · simp [fetchLoop, hr3]
    · simp [countEv_nil]; omega
    · simp [postOffsets]
  | succ k ih =>
    intro r polls acc h3 hr
    by_cases hret : maxRetries ≤ r
    · refine ⟨polls, [], ?_, ?_, ?_⟩
      · simp [List.replicate_succ, fetchLoop, hret]
      · simp [countEv_nil]; omega
      · simp [postOffsets]
    · by_cases hstop : isSet stopAt polls = true
      · refine ⟨polls + 1, [], ?_, ?_, ?_⟩
        · simp [List.replicate_succ, fetchLoop, hret, hstop]
        · simp [countEv_nil]; omega
        · simp [postOffsets]
      · have hrlt : r < 3 := by simp [maxRetries] at hret; omega
        obtain ⟨polls', tr, heq, hcount, hoffs⟩ :=
          ih (r + 1) (polls + 1) acc (by omega) (by omega)
        refine ⟨polls', Ev.post pid limit 0 :: Ev.sleepBackoff :: tr,
          ?_, ?_, ?_⟩
        · simp [List.replicate_succ, fetchLoop, hret, hstop, heq]
        · rw [countEv_cons, countEv_cons]
          simp only [isPost, if_true, Bool.false_eq_true, if_false]
          omega
        · simpa [postOffsets] using hoffs

/-- C5: when every paging request raises a transport/decode exception
(a script of three or more raising attempts), the per-player paging loop
terminates with an empty accumulation, issues at most `maxRetries = 3`
requests in total, and every retried request reuses the same offset 0. -/
theorem c5_all_transport_errors_bounded (stopAt : Option Nat) (limit : Int)
    (pid : String) (n polls : Nat) :
    ∃ polls' tr,
      fetchLoop stopAt limit pid (List.replicate (3 + n) Attempt.raise)
          (some 0) 0 [] polls
        = some ([], polls', tr) ∧
      countEv isPost tr ≤ 3 ∧
      (postOffsets tr).all (fun x => x == 0) = true := by
  obtain ⟨polls', tr, h1, h2, h3⟩ :=
    fetchLoop_raise_aux stopAt limit pid (3 + n) 0 polls [] (by omega)
      (by omega)
  exact ⟨polls', tr, h1, by omega, h3⟩

/-- Inserting a non-empty value into a dict whose values are all non-empty
keeps every value non-empty. -/
theorem dictInsert_all_nonempty (k : String) (v : List MatchRecord)
    (hist : List (String × List MatchRecord)) (hv : v.isEmpty = false)
    (hh : hist.all (fun kv => !kv.2.isEmpty) = true) :
    (dictInsert k v hist).all (fun kv => !kv.2.isEmpty) = true := by
  induction hist with
  | nil => simp [dictInsert, hv]
  | cons a rest ih =>
    obtain ⟨k', v'⟩ := a
    simp only [List.all_cons, Bool.and_eq_true] at hh
    by_cases hk : k' = k
    · simp [dictInsert, hk, hv, hh.2]
    · simp [dictInsert, hk, hh.1, ih hh.2]

/-- The match-history loop only ever stores non-empty accumulations: if the
dict it starts from has only non-empty values, so does the dict it
returns. -/
theorem historyLoop_all_nonempty (stopAt : Option Nat) (limit : Int)
    (pages : Nat → List Attempt) :
    ∀ (pids : List String) (idx polls : Nat)
      (hist : List (String × List MatchRecord))
      (out : List (String × List MatchRecord) × Nat × List Ev),
      hist.all (fun kv => !kv.2.isEmpty) = true →
      historyLoop stopAt limit pages pids idx polls hist = some out →
      out.1.all (fun kv => !kv.2.isEmpty) = true := by
  intro pids
  induction pids with
  | nil =>
    intro idx polls hist out hh heq
    simp only [historyLoop, Option.some.injEq] at heq
    rw [← heq]
    simpa using hh
  | cons pid rest ih =>
    intro idx polls hist out hh heq
    simp only [historyLoop] at heq
    by_cases hstop : isSet stopAt polls = true
    · simp only [hstop, if_true, Option.some.injEq] at heq
      rw [← heq]
      simpa using hh
    · simp only [hstop, if_false, Bool.false_eq_true] at heq
      cases hf : fetchLoop stopAt limit pid (pages idx) (some 0) 0 []
          (polls + 1) with
      | none => rw [hf] at heq; simp at heq
      | some r =>
        rw [hf] at heq
        simp only at heq
        cases hr : historyLoop stopAt limit pages rest (idx + 1) r.2.1
            (if r.1.isEmpty then hist else dictInsert pid r.1 hist) with
        | none => rw [hr] at heq; simp at heq
        | some h =>
          rw [hr] at heq
          simp only [Option.some.injEq] at heq
          have hall :
              (if r.1.isEmpty then hist
               else dictInsert pid r.1 hist).all (fun kv => !kv.2.isEmpty)
                = true := by
            by_cases he : r.1.isEmpty
            · simpa [he] using hh
            · simp only [he, if_false, Bool.false_eq_true]
              exact dictInsert_all_nonempty pid r.1 hist
                (by simpa using he) hh
          have hfin := ih (idx + 1) r.2.1 _ h hall hr
          rw [← heq]
          simpa using hfin

/-- C2: in every determined normal run of `get_club_data`, the returned
`match_history` stores a player id only with a non-empty match list — an
empty per-player accumulation is never stored as an empty sequence. -/
theorem c2_match_history_values_nonempty (o : Oracle) (cid : String)
    (mm mx mpp : Int) (stopAt : Option Nat) (res : CrawlResult)
    (tr : List Ev)
    (h : get_club_data o cid mm mx mpp stopAt
        = some (Except.ok (res, tr))) :
    res.match_history.all (fun kv => !kv.2.isEmpty) = true := by
  by_cases hok : o.rosterOk = true
  · simp only [get_club_data, hok, if_true, Option.map_eq_some'] at h
    obtain ⟨a, ha, hres⟩ := h
    have hmh : res.match_history = a.1 := by
      have := congrArg (fun x : Except String (CrawlResult × List Ev) =>
        match x with
        | Except.ok p => p.1.match_history
        | Except.error _ => []) hres
      simpa [assembleResult] using this.symm
    rw [hmh]
    exact historyLoop_all_nonempty stopAt mpp o.pages _ 0 _ [] a (by simp) ha
  · simp [get_club_data, hok] at h

/-- Witness for C2 at the concrete C6-scenario run: its match history is
`[("A", [rec1, rec2])]`, whose single value is non-empty. -/
theorem c2_match_history_values_nonempty_witness :
    get_club_data oracle6 "club-6" 20 5 10 none
      = some (Except.ok
          ({ club_info := { id := "club-6", name := some "Club X",
                            total_members := 1, scraped_matches := 2 }
             members := [memA]
             player_profiles := [buildProfile memA none]
             match_history := [("A", [rec1, rec2])] },
           [Ev.getPlayer "A", Ev.sleepProfile, Ev.post "A" 10 0,
            Ev.sleepPage, Ev.post "A" 10 20, Ev.sleepPage])) ∧
    List.all [("A", [rec1, rec2])] (fun kv => !kv.2.isEmpty) = true :=
  ⟨by rfl,
    c2_match_history_values_nonempty oracle6 "club-6" 20 5 10 none
      { club_info := { id := "club-6", name := some "Club X",
                       total_members := 1, scraped_matches := 2 }
        members := [memA]
        player_profiles := [buildProfile memA none]
        match_history := [("A", [rec1, rec2])] }
      [Ev.getPlayer "A", Ev.sleepProfile, Ev.post "A" 10 0,
       Ev.sleepPage, Ev.post "A" 10 20, Ev.sleepPage]
      (by rfl)⟩

/-- In the enrichment loop, the number of rate-limit sleeps equals the
number of profiles collected: the delay runs exactly once per successful
attempt. -/
theorem enrichLoop_sleep_count (stopAt : Option Nat)
    (details : Nat → DetailResult) :
    ∀ (ms : List Member) (idx polls : Nat),
      countEv isSleepProfile (enrichLoop stopAt details ms idx polls).2.2
        = (enrichLoop stopAt details ms idx polls).1.length := by
  intro ms
  induction ms with
  | nil => intro idx polls; simp [enrichLoop, countEv_nil]
  | cons m rest ih =>
    intro idx polls
    by_cases hstop : isSet stopAt polls = true
    · simp [enrichLoop, hstop, countEv_nil]
    · cases hd : details idx with
      | exc =>
        simp only [enrichLoop, hstop, Bool.false_eq_true, if_false, hd]
        rw [countEv_cons]
        simp only [isSleepProfile, Bool.false_eq_true, if_false]
        rw [ih (idx + 1) (polls + 1)]
        omega
      | ok s d =>
        simp only [enrichLoop, hstop, Bool.false_eq_true, if_false, hd]
        rw [countEv_cons, countEv_cons]
        simp only [isSleepProfile, if_true, Bool.false_eq_true, if_false,
          List.length_cons]
        rw [ih (idx + 1) (polls + 1)]
        omega

/-- The paging loop's trace never contains an enrichment rate-limit
sleep. -/
theorem fetchLoop_no_profile_sleep (stopAt : Option Nat) (limit : Int)
    (pid : String) :
    ∀ (script : List Attempt) (off : Option Nat) (retry : Nat)
      (acc : List MatchRecord) (polls : Nat)
      (out : List MatchRecord × Nat × List Ev),
      fetchLoop stopAt limit pid script off retry acc polls = some out →
      countEv isSleepProfile out.2.2 = 0 := by
  intro script
  induction script with
  | nil =>
    intro off retry acc polls out heq
    cases off with
    | none =>
      simp only [fetchLoop, Option.some.injEq] at heq
      rw [← heq]
      simp [countEv_nil]
    | some off =>
      simp only [fetchLoop] at heq
      by_cases hret : maxRetries ≤ retry
      · simp only [hret, if_true, Option.some.injEq] at heq
        rw [← heq]; simp [countEv_nil]
      · by_cases hstop : isSet stopAt polls = true
        · simp only [hret, if_false, hstop, if_true, Option.some.injEq]
            at heq
          rw [← heq]; simp [countEv_nil]
        · simp [hret, hstop] at heq
  | cons a rest ih =>
    intro off retry acc polls out heq
    cases off with
    | none =>
      simp only [fetchLoop, Option.some.injEq] at heq
      rw [← heq]
      simp [countEv_nil]
    | some off =>
      cases a with
      | raise =>
        simp only [fetchLoop] at heq
        by_cases hret : maxRetries ≤ retry
        · simp only [hret, if_true, Option.some.injEq] at heq
          rw [← heq]; simp [countEv_nil]
        · by_cases hstop : isSet stopAt polls = true
          · simp only [hret, if_false, hstop, if_true, Option.some.injEq]
              at heq
            rw [← heq]; simp [countEv_nil]
          · simp only [hret, hstop, Bool.false_eq_true, if_false] at heq
            rw [Option.map_eq_some'] at heq
            obtain ⟨r, hr, hout⟩ := heq
            rw [← hout]
            simp only
            rw [countEv_cons, countEv_cons]
            simp only [isSleepProfile, Bool.false_eq_true, if_false]
            have := ih (some off) (retry + 1) acc (polls + 1) r hr
            omega
      | respond code body =>
        simp only [fetchLoop] at heq
        by_cases hret : maxRetries ≤ retry
        · simp only [hret, if_true, Option.some.injEq] at heq
          rw [← heq]; simp [countEv_nil]
        · by_cases hstop : isSet stopAt polls = true
          · simp only [hret, if_false, hstop, if_true, Option.some.injEq]
              at heq
            rw [← heq]; simp [countEv_nil]
          · simp only [hret, hstop, Bool.false_eq_true, if_false] at heq
            by_cases hcode : code ≠ 200
            · by_cases h403 : code = 403
              · rw [if_pos hcode, if_pos h403] at heq
                rw [Option.map_eq_some'] at heq
                obtain ⟨r, hr, hout⟩ := heq
                rw [← hout]
                simp only
                rw [countEv_cons, countEv_cons]
                simp only [isSleepProfile, Bool.false_eq_true, if_false]
                have := ih (some off) (retry + 1) acc (polls + 1) r hr
                omega
              · rw [if_pos hcode, if_neg h403] at heq
                simp only [Option.some.injEq] at heq
                rw [← heq]
                rw [countEv_cons]
                simp [isSleepProfile, countEv_nil]
            · rw [if_neg hcode] at heq
              cases body with
              | none =>
                rw [Option.map_eq_some'] at heq
                obtain ⟨r, hr, hout⟩ := heq
                rw [← hout]
                simp only
                rw [countEv_cons, countEv_cons]
                simp only [isSleepProfile, Bool.false_eq_true, if_false]
                have := ih (some off) (retry + 1) acc (polls + 1) r hr
                omega
              | some page =>
                obtain ⟨nextOff, hits⟩ := page
                by_cases hhits : hits.isEmpty
                · simp only [hhits, if_true, Option.some.injEq] at heq
                  rw [← heq]
                  rw [countEv_cons]
                  simp [isSleepProfile, countEv_nil]
                · simp only [hhits, Bool.false_eq_true, if_false] at heq
                  rw [Option.map_eq_some'] at heq
                  obtain ⟨r, hr, hout⟩ := heq
                  rw [← hout]
                  simp only
                  rw [countEv_cons, countEv_cons]
                  simp only [isSleepProfile, Bool.false_eq_true, if_false]
                  have := ih nextOff retry (acc ++ hits) (polls + 1) r hr
                  omega

/-- The match-history phase's trace never contains an enrichment rate-limit
sleep. -/
theorem historyLoop_no_profile_sleep (stopAt : Option Nat) (limit : Int)
    (pages : Nat → List Attempt) :
    ∀ (pids : List String) (idx polls : Nat)
      (hist : List (String × List MatchRecord))
      (out : List (String × List MatchRecord) × Nat × List Ev),
      historyLoop stopAt limit pages pids idx polls hist = some out →
      countEv isSleepProfile out.2.2 = 0 := by
  intro pids
  induction pids with
  | nil =>
    intro idx polls hist out heq
    simp only [historyLoop, Option.some.injEq] at heq
    rw [← heq]
    simp [countEv_nil]
  | cons pid rest ih =>
    intro idx polls hist out heq
    simp only [historyLoop] at heq
    by_cases hstop : isSet stopAt polls = true
    · simp only [hstop, if_true, Option.some.injEq] at heq
      rw [← heq]
      simp [countEv_nil]
    · simp only [hstop, Bool.false_eq_true, if_false] at heq
      cases hf : fetchLoop stopAt limit pid (pages idx) (some 0) 0 []
          (polls + 1) with
      | none => rw [hf] at heq; simp at heq
      | some r =>
        rw [hf] at heq
        simp only at heq
        cases hr : historyLoop stopAt limit pages rest (idx + 1) r.2.1
            (if r.1.isEmpty then hist else dictInsert pid r.1 hist) with
        | none => rw [hr] at heq; simp at heq
        | some h =>
          rw [hr] at heq
          simp only [Option.some.injEq] at heq
          rw [← heq]
          simp only
          rw [countEv_append]
          rw [fetchLoop_no_profile_sleep stopAt limit pid (pages idx)
            (some 0) 0 [] (polls + 1) r hf]
          rw [ih (idx + 1) r.2.1 _ h hr]

/-- C9 amended: the enrichment rate-limit delay executes exactly once per
successful per-member attempt — in every determined normal run, the number
of enrichment sleeps in the trace equals the number of collected profiles;
a failing attempt (an exception) skips the delay. -/
theorem c9_delay_after_each_success (o : Oracle) (cid : String)
    (mm mx mpp : Int) (stopAt : Option Nat) (res : CrawlResult)
    (tr : List Ev)
    (h : get_club_data o cid mm mx mpp stopAt
        = some (Except.ok (res, tr))) :
    countEv isSleepProfile tr = res.player_profiles.length := by
  by_cases hok : o.rosterOk = true
  · simp only [get_club_data, hok, if_true, Option.map_eq_some'] at h
    obtain ⟨a, ha, hres⟩ := h
    have hpair :
        (assembleResult cid (truncateMembers mm o.roster)
            (enrichLoop stopAt o.details (truncateMembers mm o.roster)
              0 0).1 a.1,
          (enrichLoop stopAt o.details (truncateMembers mm o.roster)
              0 0).2.2 ++ a.2.2)
          = (res, tr) := by
      exact Except.ok.inj hres
    obtain ⟨hres1, htr⟩ := Prod.mk.injEq .. |>.mp hpair
    rw [← htr, ← hres1]
    rw [countEv_append]
    rw [enrichLoop_sleep_count]
    rw [historyLoop_no_profile_sleep stopAt mpp o.pages _ 0 _ [] a ha]
    simp [assembleResult]
  · simp [get_club_data, hok] at h

/-- Witness for the C9 amended theorem at the concrete failing-enrichment
run: zero sleeps, zero profiles. -/
theorem c9_delay_after_each_success_witness :
    get_club_data oracle9 "club-9" 20 0 10 none
      = some (Except.ok
          ({ club_info := { id := "club-9", name := some "Club X",
                            total_members := 1, scraped_matches := 0 }
             members := [memA]
             player_profiles := []
             match_history := [] },
           [Ev.getPlayer "A"])) ∧
    countEv isSleepProfile [Ev.getPlayer "A"] = 0 :=
  ⟨by rfl, by
    have := c9_delay_after_each_success oracle9 "club-9" 20 0 10 none
      { club_info := { id := "club-9", name := some "Club X",
                       total_members := 1, scraped_matches := 0 }
        members := [memA]
        player_profiles := []
        match_history := [] }
      [Ev.getPlayer "A"] (by rfl)
    simpa using this⟩

/-- C8 amended: the assembled `club_info` consists of the club id, a name
taken from the first truncated member's club-name field (the empty string
when there are no members), and the two aggregates `total_members` (count
of truncated members) and `scraped_matches` (total matches across
`match_history`); the players-with-history count is not part of
`club_info`. -/
theorem c8_club_info_amended (o : Oracle) (cid : String) (mm mx mpp : Int)
    (stopAt : Option Nat) (res : CrawlResult) (tr : List Ev)
    (h : get_club_data o cid mm mx mpp stopAt
        = some (Except.ok (res, tr))) :
    res.club_info.id = cid ∧
    res.club_info.name
      = (match res.members with
         | [] => some ""
         | m :: _ => m.clubName) ∧
    res.club_info.total_members = res.members.length ∧
    res.club_info.scraped_matches
      = (res.match_history.map (fun kv => kv.2.length)).sum := by
  by_cases hok : o.rosterOk = true
  · simp only [get_club_data, hok, if_true, Option.map_eq_some'] at h
    obtain ⟨a, ha, hres⟩ := h
    have hpair := Except.ok.inj hres
    obtain ⟨hres1, htr⟩ := Prod.mk.injEq .. |>.mp hpair
    rw [← hres1]
    refine ⟨rfl, ?_, rfl, rfl⟩
    rfl
  · simp [get_club_data, hok] at h

/-- The result value of the concrete two-member, three-match run used by
the C8 witness. -/
def res8 : CrawlResult :=
  { club_info := { id := "club-8", name := some "Club X",
                   total_members := 2, scraped_matches := 3 }
    members := [memA, memB]
    player_profiles := [buildProfile memA none, buildProfile memB none]
    match_history := [("A", [rec1, rec2, rec3])] }

/-- The trace of the concrete two-member, three-match run used by the C8
witness. -/
def tr8 : List Ev :=
  [Ev.getPlayer "A", Ev.sleepProfile, Ev.getPlayer "B",
   Ev.sleepProfile, Ev.post "A" 10 0, Ev.sleepPage]

/-- Witness for the C8 amended theorem at the concrete two-member,
three-match run. -/
theorem c8_club_info_amended_witness :
    get_club_data oracle8 "club-8" 20 1 10 none
      = some (Except.ok (res8, tr8)) ∧
    (res8.club_info.id = "club-8" ∧
     res8.club_info.name
       = (match res8.members with
          | [] => some ""
          | m :: _ => m.clubName) ∧
     res8.club_info.total_members = res8.members.length ∧
     res8.club_info.scraped_matches
       = (res8.match_history.map (fun kv => kv.2.length)).sum) :=
  ⟨by rfl,
    c8_club_info_amended oracle8 "club-8" 20 1 10 none res8 tr8 (by rfl)⟩

/-- Behaviour of the enrichment loop when the cancellation event is set at
poll threshold `t`: starting at index `idx = polls` with `idx ≤ t` and
`t` within range, and with no exception among the attempts before `t`, the
loop collects exactly the members at indices `idx, ..., t-1` (their profile
ids in roster order) and finishes with the poll counter at least `t`. -/
theorem enrichLoop_cancel_at (details : Nat → DetailResult) (t : Nat) :
    ∀ (ms : List Member) (idx : Nat), idx ≤ t → t ≤ idx + ms.length →
      (∀ j, j < t → (details j).isExc = false) →
      (enrichLoop (some t) details ms idx idx).1.map Profile.id
          = (ms.take (t - idx)).map Member.id ∧
      t ≤ (enrichLoop (some t) details ms idx idx).2.1 := by
  intro ms
  induction ms with
  | nil =>
    intro idx h1 h2 hD
    simp only [List.length_nil, Nat.add_zero] at h2
    have ht : t = idx := le_antisymm h2 h1
    subst ht
    simp [enrichLoop]
  | cons m rest ih =>
    intro idx h1 h2 hD
    by_cases hit : t ≤ idx
    · have ht : t = idx := le_antisymm hit h1
      have hset : isSet (some t) idx = true := by simp [isSet, hit]
      simp only [enrichLoop, hset, if_true]
      refine ⟨?_, ?_⟩
      · have h0 : t - idx = 0 := by omega
        simp [h0]
      · omega
    · have hlt : idx < t := Nat.lt_of_not_le hit
      have hset : isSet (some t) idx = false := by
        simp [isSet]
        omega
      cases hd : details idx with
      | exc =>
        exfalso
        have hx := hD idx hlt
        rw [hd] at hx
        simp [DetailResult.isExc] at hx
      | ok s d =>
        simp only [enrichLoop, hset, Bool.false_eq_true, if_false, hd]
        obtain ⟨ihm, ihp⟩ :=
          ih (idx + 1) (by omega)
            (by simp only [List.length_cons] at h2; omega) hD
        refine ⟨?_, ihp⟩
        have htake : t - idx = (t - (idx + 1)) + 1 := by omega
        rw [htake, List.take_succ_cons]
        simp only [List.map_cons]
        rw [ihm]
        simp [buildProfile]

/-- When the cancellation event reads set at the current poll counter (or
there are no players left), the match-history loop returns its dict
unchanged without issuing any request. -/
theorem historyLoop_stopped (stopAt : Option Nat) (limit : Int)
    (pages : Nat → List Attempt) (pids : List String) (idx polls : Nat)
    (hist : List (String × List MatchRecord))
    (h : isSet stopAt polls = true ∨ pids = []) :
    ∃ polls', historyLoop stopAt limit pages pids idx polls hist
      = some (hist, polls', []) := by
  cases pids with
  | nil => exact ⟨polls, by simp [historyLoop]⟩
  | cons pid rest =>
    rcases h with h | h
    · exact ⟨polls + 1, by simp [historyLoop, h]⟩
    · exact absurd h (by simp)

/-- C7: if the cancellation event becomes set at enrichment poll `i` (so
the first `i` members are processed and the flag reads set before member
`i + 1`), and the first `i` per-member attempts succeed, then the run
returns normally with exactly `i` profiles, in roster order (their ids are
the ids of the first `i` truncated members), and an empty match history —
in particular `i = 0` yields zero profiles, and no error is raised. -/
theorem c7_cancellation_yields_prefix_profiles (o : Oracle) (cid : String)
    (mm mx mpp : Int) (i : Nat)
    (hok : o.rosterOk = true)
    (hi : i ≤ (truncateMembers mm o.roster).length)
    (hsucc : ∀ j, j < i → (o.details j).isExc = false) :
    (runOutcome (get_club_data o cid mm mx mpp (some i))).map
        (fun p => (p.1.player_profiles.length,
                   p.1.player_profiles.map Profile.id,
                   p.1.match_history))
      = some (i, ((truncateMembers mm o.roster).take i).map Member.id,
          []) := by
  obtain ⟨hmap, hpolls⟩ :=
    enrichLoop_cancel_at o.details i (truncateMembers mm o.roster) 0
      (Nat.zero_le i) (by simpa using hi) hsucc
  have hmap' :
      (enrichLoop (some i) o.details (truncateMembers mm o.roster)
          0 0).1.map Profile.id
        = ((truncateMembers mm o.roster).take i).map Member.id := by
    simpa using hmap
  have hlen :
      (enrichLoop (some i) o.details (truncateMembers mm o.roster)
          0 0).1.length = i := by
    have h := congrArg List.length hmap'
    simp only [List.length_map, List.length_take] at h
    omega
  have hset : isSet (some i)
      (enrichLoop (some i) o.details (truncateMembers mm o.roster)
        0 0).2.1 = true := by
    simp [isSet]
    omega
  obtain ⟨polls', hH⟩ :=
    historyLoop_stopped (some i) mpp o.pages
      ((pyTake (pyOrZero mx) (truncateMembers mm o.roster)).map Member.id) 0
      (enrichLoop (some i) o.details (truncateMembers mm o.roster) 0 0).2.1
      [] (Or.inl hset)
  simp only [get_club_data, hok, if_true]
  rw [hH]
  simp only [Option.map_some', runOutcome, assembleResult]
  rw [hmap', hlen]

/-- Witness for C7 at the concrete two-member oracle with cancellation
threshold `i = 1`: exactly one profile, in roster order, empty match
history. -/
theorem c7_cancellation_yields_prefix_profiles_witness :
    (runOutcome (get_club_data oracle8 "club-7" 20 5 10 (some 1))).map
        (fun p => (p.1.player_profiles.length,
                   p.1.player_profiles.map Profile.id,
                   p.1.match_history))
      = some (1, ((truncateMembers 20 oracle8.roster).take 1).map Member.id,
          []) :=
  c7_cancellation_yields_prefix_profiles oracle8 "club-7" 20 5 10 1 rfl
    (by decide) (by decide)
